import Mathlib

/-
Verification of the FinX temporal feature and similarity-index engine.

The numeric model uses exact rationals in place of IEEE doubles: the
properties checked here (which rows a statistic is computed from, which
scalar thresholds are applied where, window counts, control flow of the
validation and fallback branches) are arithmetic-representation independent.
Square roots and exponentials (numpy sqrt and exp) are irrational in general,
so the few places the code takes them are abstracted as an explicit function
parameter, or characterised by a hypothesis of the form s ^ 2 = variance.
-/

namespace FinX

/-- Arithmetic mean of a list of rationals; numpy and pandas mean.
For the empty list this yields 0 (division by zero in the rationals);
every use below is guarded by a nonemptiness check, as in the source. -/
def listMean (xs : List ℚ) : ℚ := xs.sum / xs.length

/-- Population variance (numpy default, ddof = 0). -/
def popVar (xs : List ℚ) : ℚ :=
  ((xs.map (fun x => (x - listMean xs) ^ 2)).sum) / xs.length

/-- Sample variance (pandas default, ddof = 1). -/
def sampleVar (xs : List ℚ) : ℚ :=
  ((xs.map (fun x => (x - listMean xs) ^ 2)).sum) / (xs.length - 1 : ℚ)

/-- Insert a value into an ascending list, keeping it ascending. -/
def insertAsc (x : ℚ) : List ℚ → List ℚ
  | [] => [x]
  | y :: ys => if x ≤ y then x :: y :: ys else y :: insertAsc x ys

/-- Ascending insertion sort, modelling the internal sort of numpy percentile. -/
def sortAsc (xs : List ℚ) : List ℚ := xs.foldr insertAsc []

/-- Smallest element of a list, 0 if empty (guarded at every use). -/
def listMinD (xs : List ℚ) : ℚ := xs.min?.getD 0

/-- Largest element of a list, 0 if empty (guarded at every use). -/
def listMaxD (xs : List ℚ) : ℚ := xs.max?.getD 0

/-- numpy percentile with the default linear interpolation: for a sample of
size n and q on the 0..100 scale, the virtual index is h = (n-1)q/100 and the
result interpolates between the two adjacent order statistics. -/
def percentileLinear (xs : List ℚ) (q : ℚ) : ℚ :=
  let s := sortAsc xs
  let h : ℚ := ((s.length : ℚ) - 1) * q / 100
  let l : ℕ := (⌊h⌋).toNat
  s.getD l 0 + (h - l) * (s.getD (l + 1) (s.getD l 0) - s.getD l 0)

/-- Maximum of two rationals, written out so that witnesses evaluate. -/
def maxQ (a b : ℚ) : ℚ := if a ≤ b then b else a

/-- Minimum of two rationals, written out so that witnesses evaluate. -/
def minQ (a b : ℚ) : ℚ := if a ≤ b then a else b

/-- Clipping of one value to the closed band, as numpy and pandas clip:
values below the lower threshold become the lower threshold, values above
the upper one become the upper one. -/
def clipQ (lo hi x : ℚ) : ℚ := minQ hi (maxQ lo x)

/-- maxQ agrees with the order-theoretic maximum. -/
theorem maxQ_eq (a b : ℚ) : maxQ a b = max a b := (max_def a b).symm

/-- minQ agrees with the order-theoretic minimum. -/
theorem minQ_eq (a b : ℚ) : minQ a b = min a b := (min_def a b).symm

/-- Date-indexed returns matrix: one entry per trading date, carrying the
date and the row of per-asset returns (steps/returns_clip_step.py works on
such a date-by-ticker table, already date-sorted and NaN-row-free). -/
abbrev RetTable := List (ℤ × List ℚ)

/-- Rows of the training period: dates at or before the cutoff
(`train_mask = returns.index <= train_end_date`). -/
def trainRows (tEnd : ℤ) (rets : RetTable) : RetTable :=
  rets.filter (fun row => row.1 ≤ tEnd)

/-- Pooling of all assets of all selected rows into one flat sample
(`train_returns.values.flatten()`). -/
def pooledValues (rows : RetTable) : List ℚ :=
  (rows.map Prod.snd).flatten

/-- Clip every entry of the matrix with the same two scalar thresholds
(`returns.clip(lower=lower_thr, upper=upper_thr)`). -/
def clipMatrix (lo hi : ℚ) (rets : RetTable) : RetTable :=
  rets.map (fun row => (row.1, row.2.map (clipQ lo hi)))

/-- One clipping threshold: the given percentile (fraction scale, times 100
as in the source) of the pooled training-period returns of all assets. -/
def thresholdOf (rets : RetTable) (tEnd : ℤ) (pct : ℚ) : ℚ :=
  percentileLinear (pooledValues (trainRows tEnd rets)) (pct * 100)

/-- Output of the returns step: the winsorized matrix and the two scalar
thresholds recorded in the thresholds artifact. -/
structure ClipResult where
  clipped : RetTable
  lowerThreshold : ℚ
  upperThreshold : ℚ
  deriving DecidableEq

/-- Error text of the empty-returns guard. -/
def errReturnsEmpty : String := "Returns empty after computation"

/-- Error text of the empty-training-mask guard. -/
def errNoTrain : String := "No train data found. Check train_end_date."

/-- Core of compute_and_clip_returns (steps/returns_clip_step.py): fail if
the returns matrix is empty, fail if no row lies at or before the training
cutoff, otherwise take the configured percentiles of the pooled training
returns and clip the whole matrix with those two scalars. -/
def compute_and_clip_returns (rets : RetTable) (tEnd : ℤ)
    (lowerPct upperPct : ℚ) : Except String ClipResult :=
  if rets.isEmpty then .error errReturnsEmpty
  else if (trainRows tEnd rets).isEmpty then .error errNoTrain
  else .ok ⟨clipMatrix (thresholdOf rets tEnd lowerPct) (thresholdOf rets tEnd upperPct) rets,
            thresholdOf rets tEnd lowerPct, thresholdOf rets tEnd upperPct⟩

/-- Decidable equality for the step results, used to evaluate witnesses. -/
instance (α β : Type) [DecidableEq α] [DecidableEq β] : DecidableEq (Except α β) :=
  fun a b =>
    match a, b with
    | .error e1, .error e2 =>
      if h : e1 = e2 then .isTrue (by rw [h]) else .isFalse (by intro hc; cases hc; exact h rfl)
    | .error _, .ok _ => .isFalse (by intro hc; cases hc)
    | .ok _, .error _ => .isFalse (by intro hc; cases hc)
    | .ok v1, .ok v2 =>
      if h : v1 = v2 then .isTrue (by rw [h]) else .isFalse (by intro hc; cases hc; exact h rfl)

/-- Inversion of a successful run of the returns step: the result is the
clip of the input with the two training-percentile thresholds. -/
theorem compute_and_clip_ok_inv (rets : RetTable) (tEnd : ℤ)
    (lowerPct upperPct : ℚ) (res : ClipResult)
    (h : compute_and_clip_returns rets tEnd lowerPct upperPct = .ok res) :
    res = ⟨clipMatrix (thresholdOf rets tEnd lowerPct) (thresholdOf rets tEnd upperPct) rets,
           thresholdOf rets tEnd lowerPct, thresholdOf rets tEnd upperPct⟩ := by
  unfold compute_and_clip_returns at h
  split_ifs at h
  all_goals
    first
      | exact Except.noConfusion h
      | (simp only [Except.ok.injEq] at h
         exact h.symm)

/-- Appending rows dated strictly after the cutoff does not change the
selected training rows. -/
theorem trainRows_append_future (rets futureRows : RetTable) (tEnd : ℤ)
    (h : ∀ p ∈ futureRows, tEnd < p.1) :
    trainRows tEnd (rets ++ futureRows) = trainRows tEnd rets := by
  unfold trainRows
  rw [List.filter_append]
  have hnil : futureRows.filter (fun row => decide (row.1 ≤ tEnd)) = [] := by
    rw [List.filter_eq_nil_iff]
    intro a ha
    simpa using not_le.mpr (h a ha)
  rw [hnil, List.append_nil]

/-- C2: the clipping thresholds are the configured percentiles of the pooled
training-period returns only (all assets together), and the same two scalar
thresholds are applied to every asset at every date, including dates after
the training cutoff: appending any future rows leaves the two thresholds
unchanged, and the stored matrix is exactly the pointwise clip of the whole
input with those two train-derived scalars. -/
theorem returns_thresholds_train_only (rets futureRows : RetTable) (tEnd : ℤ)
    (lowerPct upperPct : ℚ) (res res2 : ClipResult)
    (hfut : ∀ p ∈ futureRows, tEnd < p.1)
    (h1 : compute_and_clip_returns rets tEnd lowerPct upperPct = .ok res)
    (h2 : compute_and_clip_returns (rets ++ futureRows) tEnd lowerPct upperPct = .ok res2) :
    res2.lowerThreshold = res.lowerThreshold ∧
    res2.upperThreshold = res.upperThreshold ∧
    res2.clipped = clipMatrix res.lowerThreshold res.upperThreshold (rets ++ futureRows) := by
  have hT : trainRows tEnd (rets ++ futureRows) = trainRows tEnd rets :=
    trainRows_append_future rets futureRows tEnd hfut
  have hThr : ∀ p : ℚ, thresholdOf (rets ++ futureRows) tEnd p = thresholdOf rets tEnd p := by
    intro p
    unfold thresholdOf
    rw [hT]
  have e1 := compute_and_clip_ok_inv rets tEnd lowerPct upperPct res h1
  have e2 := compute_and_clip_ok_inv (rets ++ futureRows) tEnd lowerPct upperPct res2 h2
  subst e1
  subst e2
  refine ⟨hThr lowerPct, hThr upperPct, ?_⟩
  show clipMatrix (thresholdOf (rets ++ futureRows) tEnd lowerPct)
      (thresholdOf (rets ++ futureRows) tEnd upperPct) (rets ++ futureRows) =
    clipMatrix (thresholdOf rets tEnd lowerPct) (thresholdOf rets tEnd upperPct)
      (rets ++ futureRows)
  rw [hThr lowerPct, hThr upperPct]

/-- Witness for C2 at a concrete table: one training pair of returns 0 and
10 with cutoff date 1, extended by a future row dated 2; the thresholds
1/10 and 99/10 come from the training rows alone and the future value 100
is clipped with the same scalars. -/
theorem returns_thresholds_train_only_witness :
    compute_and_clip_returns [((0 : ℤ), [(0 : ℚ)]), ((1 : ℤ), [(10 : ℚ)])]
        1 (1 / 100) (99 / 100) =
      .ok ⟨[((0 : ℤ), [(1 / 10 : ℚ)]), ((1 : ℤ), [(99 / 10 : ℚ)])], 1 / 10, 99 / 10⟩ ∧
    compute_and_clip_returns
        ([((0 : ℤ), [(0 : ℚ)]), ((1 : ℤ), [(10 : ℚ)])] ++ [((2 : ℤ), [(100 : ℚ)])])
        1 (1 / 100) (99 / 100) =
      .ok ⟨[((0 : ℤ), [(1 / 10 : ℚ)]), ((1 : ℤ), [(99 / 10 : ℚ)]),
            ((2 : ℤ), [(99 / 10 : ℚ)])], 1 / 10, 99 / 10⟩ ∧
    (ClipResult.mk [((0 : ℤ), [(1 / 10 : ℚ)]), ((1 : ℤ), [(99 / 10 : ℚ)]),
        ((2 : ℤ), [(99 / 10 : ℚ)])] (1 / 10) (99 / 10)).clipped =
      clipMatrix (1 / 10) (99 / 10)
        ([((0 : ℤ), [(0 : ℚ)]), ((1 : ℤ), [(10 : ℚ)])] ++ [((2 : ℤ), [(100 : ℚ)])]) := by
  have h1 : compute_and_clip_returns [((0 : ℤ), [(0 : ℚ)]), ((1 : ℤ), [(10 : ℚ)])]
      1 (1 / 100) (99 / 100) =
      .ok ⟨[((0 : ℤ), [(1 / 10 : ℚ)]), ((1 : ℤ), [(99 / 10 : ℚ)])], 1 / 10, 99 / 10⟩ := by
    norm_num [compute_and_clip_returns, thresholdOf, pooledValues, trainRows,
      percentileLinear, sortAsc, insertAsc, clipMatrix, clipQ, minQ, maxQ, List.filter]
  have h2 : compute_and_clip_returns
      ([((0 : ℤ), [(0 : ℚ)]), ((1 : ℤ), [(10 : ℚ)])] ++ [((2 : ℤ), [(100 : ℚ)])])
      1 (1 / 100) (99 / 100) =
      .ok ⟨[((0 : ℤ), [(1 / 10 : ℚ)]), ((1 : ℤ), [(99 / 10 : ℚ)]),
            ((2 : ℤ), [(99 / 10 : ℚ)])], 1 / 10, 99 / 10⟩ := by
    norm_num [compute_and_clip_returns, thresholdOf, pooledValues, trainRows,
      percentileLinear, sortAsc, insertAsc, clipMatrix, clipQ, minQ, maxQ, List.filter]
  refine ⟨h1, h2, ?_⟩
  exact (returns_thresholds_train_only
    [((0 : ℤ), [(0 : ℚ)]), ((1 : ℤ), [(10 : ℚ)])]
    [((2 : ℤ), [(100 : ℚ)])] 1 (1 / 100) (99 / 100)
    ⟨[((0 : ℤ), [(1 / 10 : ℚ)]), ((1 : ℤ), [(99 / 10 : ℚ)])], 1 / 10, 99 / 10⟩
    ⟨[((0 : ℤ), [(1 / 10 : ℚ)]), ((1 : ℤ), [(99 / 10 : ℚ)]),
      ((2 : ℤ), [(99 / 10 : ℚ)])], 1 / 10, 99 / 10⟩
    (by decide) h1 h2).2.2

/-- Clipping one value twice with the same thresholds is the same as
clipping it once. -/
theorem clipQ_idem (lo hi x : ℚ) : clipQ lo hi (clipQ lo hi x) = clipQ lo hi x := by
  unfold clipQ
  simp only [minQ_eq, maxQ_eq]
  rcases le_total lo hi with h | h
  · rcases le_total x lo with h1 | h1
    · rw [max_eq_left h1, min_eq_right h, max_eq_left le_rfl, min_eq_right h]
    · rcases le_total hi x with h2 | h2
      · rw [max_eq_right h1, min_eq_left h2, max_eq_right h, min_eq_right le_rfl]
      · rw [max_eq_right h1, min_eq_right h2, max_eq_right h1, min_eq_right h2]
  · have h1 : hi ≤ max lo x := le_trans h (le_max_left lo x)
    rw [min_eq_left h1, max_eq_left h, min_eq_left h]

/-- C9: clipping with the thresholds fitted by the returns step is
idempotent: a second application of the same clip to any already-clipped
matrix is a no-op, and the stored output matrix is itself a fixpoint. -/
theorem clip_idempotent (rets : RetTable) (tEnd : ℤ) (lowerPct upperPct : ℚ)
    (res : ClipResult)
    (h : compute_and_clip_returns rets tEnd lowerPct upperPct = .ok res) :
    (∀ x : RetTable,
      clipMatrix res.lowerThreshold res.upperThreshold
          (clipMatrix res.lowerThreshold res.upperThreshold x) =
        clipMatrix res.lowerThreshold res.upperThreshold x) ∧
    clipMatrix res.lowerThreshold res.upperThreshold res.clipped = res.clipped := by
  have hidem : ∀ x : RetTable,
      clipMatrix res.lowerThreshold res.upperThreshold
          (clipMatrix res.lowerThreshold res.upperThreshold x) =
        clipMatrix res.lowerThreshold res.upperThreshold x := by
    intro x
    unfold clipMatrix
    rw [List.map_map]
    refine List.map_congr_left ?_
    intro row _
    simp only [Function.comp]
    rw [List.map_map]
    refine congrArg (fun l => (row.1, l)) ?_
    refine List.map_congr_left ?_
    intro v _
    exact clipQ_idem _ _ v
  refine ⟨hidem, ?_⟩
  have e := compute_and_clip_ok_inv rets tEnd lowerPct upperPct res h
  subst e
  exact hidem rets

/-- Witness for C9 at a concrete table. -/
theorem clip_idempotent_witness :
    clipMatrix (1 / 10) (99 / 10)
        (clipMatrix (1 / 10) (99 / 10) [((0 : ℤ), [(-5 : ℚ)]), ((3 : ℤ), [(42 : ℚ)])]) =
      clipMatrix (1 / 10) (99 / 10) [((0 : ℤ), [(-5 : ℚ)]), ((3 : ℤ), [(42 : ℚ)])] := by
  have hok : compute_and_clip_returns [((0 : ℤ), [(0 : ℚ)]), ((1 : ℤ), [(10 : ℚ)])]
      1 (1 / 100) (99 / 100) =
      .ok ⟨[((0 : ℤ), [(1 / 10 : ℚ)]), ((1 : ℤ), [(99 / 10 : ℚ)])], 1 / 10, 99 / 10⟩ := by
    norm_num [compute_and_clip_returns, thresholdOf, pooledValues, trainRows,
      percentileLinear, sortAsc, insertAsc, clipMatrix, clipQ, minQ, maxQ, List.filter]
  have h := clip_idempotent
    [((0 : ℤ), [(0 : ℚ)]), ((1 : ℤ), [(10 : ℚ)])] 1 (1 / 100) (99 / 100)
    ⟨[((0 : ℤ), [(1 / 10 : ℚ)]), ((1 : ℤ), [(99 / 10 : ℚ)])], 1 / 10, 99 / 10⟩
    hok
  exact h.1 [((0 : ℤ), [(-5 : ℚ)]), ((3 : ℤ), [(42 : ℚ)])]

/-- Train mask of the export step (steps/export_for_models_step.py line 96):
dates at or before the training cutoff. -/
def trainMaskDates (tEnd : ℤ) (dates : List ℤ) : List ℤ :=
  dates.filter (fun d => d ≤ tEnd)

/-- Validation mask (line 97): strictly after the training cutoff and at or
before the validation cutoff. -/
def valMaskDates (tEnd vEnd : ℤ) (dates : List ℤ) : List ℤ :=
  dates.filter (fun d => tEnd < d ∧ d ≤ vEnd)

/-- Test mask (line 98): strictly after the validation cutoff. -/
def testMaskDates (vEnd : ℤ) (dates : List ℤ) : List ℤ :=
  dates.filter (fun d => vEnd < d)

/-- C4: with cutoffs trainEnd < valEnd, every date of the index belongs to
exactly one of the three mask-selected slices, and the three slice sizes add
up to the size of the full range. -/
theorem export_partition_complete (dates : List ℤ) (tEnd vEnd : ℤ)
    (hcut : tEnd < vEnd) :
    (∀ d ∈ dates,
      (d ∈ trainMaskDates tEnd dates ∧ d ∉ valMaskDates tEnd vEnd dates ∧
        d ∉ testMaskDates vEnd dates) ∨
      (d ∉ trainMaskDates tEnd dates ∧ d ∈ valMaskDates tEnd vEnd dates ∧
        d ∉ testMaskDates vEnd dates) ∨
      (d ∉ trainMaskDates tEnd dates ∧ d ∉ valMaskDates tEnd vEnd dates ∧
        d ∈ testMaskDates vEnd dates)) ∧
    (trainMaskDates tEnd dates).length + (valMaskDates tEnd vEnd dates).length +
        (testMaskDates vEnd dates).length = dates.length := by
  constructor
  · intro d hd
    have ht : d ∈ trainMaskDates tEnd dates ↔ d ≤ tEnd := by
      simp [trainMaskDates, List.mem_filter, hd]
    have hv : d ∈ valMaskDates tEnd vEnd dates ↔ (tEnd < d ∧ d ≤ vEnd) := by
      simp [valMaskDates, List.mem_filter, hd]
    have hte : d ∈ testMaskDates vEnd dates ↔ vEnd < d := by
      simp [testMaskDates, List.mem_filter, hd]
    rw [ht, hv, hte]
    omega
  · induction dates with
    | nil => simp [trainMaskDates, valMaskDates, testMaskDates]
    | cons d ds ih =>
      simp only [trainMaskDates, valMaskDates, testMaskDates, List.filter_cons] at ih ⊢
      by_cases h1 : d ≤ tEnd
      · rw [if_pos (by simp only [decide_eq_true_eq]; omega),
            if_neg (by simp only [decide_eq_true_eq]; omega),
            if_neg (by simp only [decide_eq_true_eq]; omega)]
        simp only [List.length_cons]
        omega
      · by_cases h2 : d ≤ vEnd
        · rw [if_neg (by simp only [decide_eq_true_eq]; omega),
              if_pos (by simp only [decide_eq_true_eq]; omega),
              if_neg (by simp only [decide_eq_true_eq]; omega)]
          simp only [List.length_cons]
          omega
        · rw [if_neg (by simp only [decide_eq_true_eq]; omega),
              if_neg (by simp only [decide_eq_true_eq]; omega),
              if_pos (by simp only [decide_eq_true_eq]; omega)]
          simp only [List.length_cons]
          omega

/-- Witness for C4 on the four dates 0..3 with cutoffs 1 and 2. -/
theorem export_partition_complete_witness :
    (1 : ℤ) < 2 ∧
    (trainMaskDates 1 [0, 1, 2, 3]).length + (valMaskDates 1 2 [0, 1, 2, 3]).length +
        (testMaskDates 2 [0, 1, 2, 3]).length = ([0, 1, 2, 3] : List ℤ).length :=
  ⟨by decide, (export_partition_complete [0, 1, 2, 3] 1 2 (by decide)).2⟩

/-- Split-consistency checks of the per-asset export
(steps/export_for_models_step.py lines 135-139): the five assertions compare
the lengths of the three feature/target split pairs and the index sequences
of the train and validation pairs only. -/
def export_split_checks (xTrainIdx yTrainIdx xValIdx yValIdx xTestIdx yTestIdx : List ℤ) :
    Bool :=
  (xTrainIdx.length == yTrainIdx.length) && (xValIdx.length == yValIdx.length) &&
  (xTestIdx.length == yTestIdx.length) && (xTrainIdx == yTrainIdx) && (xValIdx == yValIdx)

/-- C5 counterexample: the export validation passes (no assertion fires) on
splits whose test feature index and test target index differ in value, as
long as they have the same length; so it is not the case that the step fails
whenever some exported split has differing feature and target indices. -/
theorem export_alignment_counterexample :
    export_split_checks [0] [0] [1] [1] [2] [3] = true ∧ ([2] : List ℤ) ≠ [3] := by
  constructor
  · rfl
  · decide

/-- C5 amended: the per-asset export validation is equivalent to requiring
identical train indices, identical validation indices, and equal lengths of
the test indices; value equality of the test index pair is not checked (and
the pooled/global view is exported with no such checks at all). -/
theorem export_alignment_guard
    (xTrainIdx yTrainIdx xValIdx yValIdx xTestIdx yTestIdx : List ℤ) :
    export_split_checks xTrainIdx yTrainIdx xValIdx yValIdx xTestIdx yTestIdx = true ↔
      (xTrainIdx = yTrainIdx ∧ xValIdx = yValIdx ∧ xTestIdx.length = yTestIdx.length) := by
  simp only [export_split_checks, Bool.and_eq_true, beq_iff_eq]
  constructor
  · rintro ⟨⟨⟨⟨-, -⟩, hlt⟩, htr⟩, hv⟩
    exact ⟨htr, hv, hlt⟩
  · rintro ⟨htr, hv, hlt⟩
    exact ⟨⟨⟨⟨by rw [htr], by rw [hv]⟩, hlt⟩, htr⟩, hv⟩

/-- Values of column j of a row-major matrix (0 when a row is short; the
source tables are rectangular). -/
def colVals (rows : List (List ℚ)) (j : ℕ) : List ℚ :=
  rows.map (fun r => r.getD j 0)

/-- Training slice of a date-indexed feature table
(`X_train = features_all.loc[features_all.index <= train_end_date]`,
steps/scale_features_step.py lines 63-67), as bare rows. -/
def trainSlice (tEnd : ℤ) (tbl : List (ℤ × List ℚ)) : List (List ℚ) :=
  (trainRows tEnd tbl).map Prod.snd

/-- Parameters fitted by StandardScaler on the training slice: per-column
mean and population variance (sklearn stores mean_, var_ and
scale_ = sqrt var_; the pair below determines all three). -/
def fitStandardParams (train : List (List ℚ)) (nCols : ℕ) : List (ℚ × ℚ) :=
  (List.range nCols).map
    (fun j => (listMean (colVals train j), popVar (colVals train j)))

/-- StandardScaler transform of one column with centre mean(xs) and scale s;
s stands for the square root of the fitted variance, characterised by the
hypothesis s ^ 2 = popVar xs since that root is irrational in general. -/
def standardTransformCol (xs : List ℚ) (s : ℚ) : List ℚ :=
  xs.map (fun x => (x - listMean xs) / s)

/-- Sum of a list after dividing each mapped value by a constant. -/
theorem sum_map_div (xs : List ℚ) (g : ℚ → ℚ) (c : ℚ) :
    (xs.map (fun x => g x / c)).sum = (xs.map g).sum / c := by
  induction xs with
  | nil => simp
  | cons a l ih =>
    simp only [List.map_cons, List.sum_cons, ih]
    ring

/-- Sum of a list after subtracting a constant from each value. -/
theorem sum_map_sub_const (xs : List ℚ) (m : ℚ) :
    (xs.map (fun x => x - m)).sum = xs.sum - xs.length * m := by
  induction xs with
  | nil => simp
  | cons a l ih =>
    simp only [List.map_cons, List.sum_cons, ih, List.length_cons]
    push_cast
    ring

/-- Standardizing a column of positive variance gives exact mean 0 and exact
population variance 1. -/
theorem standardize_mean_var (xs : List ℚ) (s : ℚ)
    (hvar : 0 < popVar xs) (hs : s ^ 2 = popVar xs) :
    listMean (standardTransformCol xs s) = 0 ∧
    popVar (standardTransformCol xs s) = 1 := by
  have hne : xs ≠ [] := by
    rintro rfl
    simp [popVar] at hvar
  have hlen : (0 : ℚ) < xs.length := by
    exact_mod_cast List.length_pos.mpr hne
  have hnQ : (xs.length : ℚ) ≠ 0 := ne_of_gt hlen
  have hs2 : s ^ 2 ≠ 0 := by
    rw [hs]
    exact ne_of_gt hvar
  have hzero : xs.sum - xs.length * listMean xs = 0 := by
    simp only [listMean]
    rw [mul_comm, div_mul_cancel₀ _ hnQ, sub_self]
  have hsum0 : (xs.map (fun x => (x - listMean xs) / s)).sum = 0 := by
    rw [sum_map_div xs (fun x => x - listMean xs) s, sum_map_sub_const, hzero, zero_div]
  have hmean : listMean (standardTransformCol xs s) = 0 := by
    have hdef : listMean (xs.map (fun x => (x - listMean xs) / s)) =
        (xs.map (fun x => (x - listMean xs) / s)).sum /
          (xs.map (fun x => (x - listMean xs) / s)).length := rfl
    simp only [standardTransformCol]
    rw [hdef, hsum0, zero_div]
  refine ⟨hmean, ?_⟩
  have hSq : (xs.map (fun x => (x - listMean xs) ^ 2)).sum = s ^ 2 * xs.length := by
    have h1 : (xs.map (fun x => (x - listMean xs) ^ 2)).sum = popVar xs * xs.length := by
      simp only [popVar]
      rw [div_mul_cancel₀ _ hnQ]
    rw [h1, ← hs]
  simp only [popVar]
  rw [hmean]
  simp only [sub_zero, standardTransformCol, List.length_map, List.map_map]
  have hcomp : ((fun y => y ^ 2) ∘ fun x => (x - listMean xs) / s) =
      fun x => ((x - listMean xs) ^ 2) / s ^ 2 := by
    funext x
    simp [Function.comp, div_pow]
  rw [hcomp, sum_map_div xs (fun x => (x - listMean xs) ^ 2) (s ^ 2), hSq,
    mul_div_cancel_left₀ _ hs2, div_self hnQ]

/-- Appending rows dated strictly after the cutoff leaves the training slice
of the feature table unchanged. -/
theorem trainSlice_append_future (tbl future : List (ℤ × List ℚ)) (tEnd : ℤ)
    (h : ∀ p ∈ future, tEnd < p.1) :
    trainSlice tEnd (tbl ++ future) = trainSlice tEnd tbl := by
  unfold trainSlice
  rw [trainRows_append_future tbl future tEnd h]

/-- C3: the fitted feature-scaler parameters are a pure function of the
training slice (refitting after appending future-dated rows leaves every
per-column mean and variance unchanged), and the standard variant transforms
every training column of positive variance to exact mean 0 and population
variance 1 (standard deviation 1). -/
theorem scale_features_fit_train_only (tbl future : List (ℤ × List ℚ)) (tEnd : ℤ)
    (nCols j : ℕ) (s : ℚ)
    (hfut : ∀ p ∈ future, tEnd < p.1)
    (hvar : 0 < popVar (colVals (trainSlice tEnd tbl) j))
    (hs : s ^ 2 = popVar (colVals (trainSlice tEnd tbl) j)) :
    fitStandardParams (trainSlice tEnd (tbl ++ future)) nCols =
      fitStandardParams (trainSlice tEnd tbl) nCols ∧
    listMean (standardTransformCol (colVals (trainSlice tEnd tbl) j) s) = 0 ∧
    popVar (standardTransformCol (colVals (trainSlice tEnd tbl) j) s) = 1 := by
  refine ⟨?_, standardize_mean_var _ s hvar hs⟩
  rw [trainSlice_append_future tbl future tEnd hfut]

/-- Witness for C3: two training rows with feature values 0 and 2 (cutoff 1)
and one future row; the training column has variance 1, so scale s = 1. -/
theorem scale_features_fit_train_only_witness :
    fitStandardParams
        (trainSlice 1 ([((0 : ℤ), [(0 : ℚ)]), ((1 : ℤ), [(2 : ℚ)])] ++
          [((2 : ℤ), [(50 : ℚ)])])) 1 =
      fitStandardParams (trainSlice 1 [((0 : ℤ), [(0 : ℚ)]), ((1 : ℤ), [(2 : ℚ)])]) 1 ∧
    listMean (standardTransformCol
        (colVals (trainSlice 1 [((0 : ℤ), [(0 : ℚ)]), ((1 : ℤ), [(2 : ℚ)])]) 0) 1) = 0 ∧
    popVar (standardTransformCol
        (colVals (trainSlice 1 [((0 : ℤ), [(0 : ℚ)]), ((1 : ℤ), [(2 : ℚ)])]) 0) 1) = 1 := by
  refine scale_features_fit_train_only
    [((0 : ℤ), [(0 : ℚ)]), ((1 : ℤ), [(2 : ℚ)])] [((2 : ℤ), [(50 : ℚ)])]
    1 1 0 1 (by decide) ?_ ?_
  · norm_num [popVar, listMean, colVals, trainSlice, trainRows, List.filter_cons]
  · norm_num [popVar, listMean, colVals, trainSlice, trainRows, List.filter_cons]

/-- One cell of the scaled feature matrix: none models a NaN entry. -/
abbrev Cell := Option ℚ

/-- Number of non-NaN cells of a window block (`np.sum(~np.isnan(window))`). -/
def countValid (window : List (List Cell)) : ℕ :=
  (window.map (fun row => (row.filter Option.isSome).length)).sum

/-- The feature-row block of a window starting at row i with w rows
(`all_features_data[i : i + window_size, :]`). -/
def windowRows (rows : List (List Cell)) (w i : ℕ) : List (List Cell) :=
  (rows.drop i).take w

/-- NaN replacement before flattening (`np.nan_to_num(window, nan=0.0)`). -/
def nanToZero (c : Cell) : ℚ := c.getD 0

/-- Row-major flattening of a window block with NaNs replaced by 0
(`window_clean.flatten()`). -/
def flattenClean (window : List (List Cell)) : List ℚ :=
  (window.map (fun row => row.map nanToZero)).flatten

/-- Column count of the full feature matrix (`features_scaled.values.shape[1]`;
the source matrix is rectangular, so the head row determines it). -/
def nFeaturesOf (rows : List (List Cell)) : ℕ := (rows.headD []).length

/-- Python `range(0, m, stride)` for stride >= 1. -/
def strideRange (m stride : ℕ) : List ℕ :=
  (List.range ((m + stride - 1) / stride)).map (fun k => k * stride)

/-- Acceptance test of one window (steps/qdrant_index_step.py line 151): the
window is kept unless its non-NaN cell count falls below
min_required_points * n_features. -/
def acceptWindow (rows : List (List Cell)) (w minReq : ℕ) (i : ℕ) : Bool :=
  decide (minReq * nFeaturesOf rows ≤ countValid (windowRows rows w i))

/-- An indexed window: the payload stored for one accepted window position
(vector plus the claim-relevant metadata fields; the audit-only return
statistics attached to the metadata are not modelled, no claim reads them). -/
structure WindowPoint where
  ticker : String
  dateStart : ℤ
  dateEnd : ℤ
  windowIdx : ℕ
  startPos : ℕ
  vec : List ℚ
  deriving DecidableEq

/-- Windows produced for one ticker by the Qdrant indexing step
(steps/qdrant_index_step.py lines 136-215): positions are slid over the
whole date axis at the given stride, rejected positions are skipped, and
window_idx counts accepted windows; the vector flattens the designated block
of the ENTIRE scaled feature matrix (all columns, not only the ticker's). -/
def windows_for_ticker (rows : List (List Cell)) (dates : List ℤ) (tk : String)
    (w stride minReq : ℕ) : List WindowPoint :=
  ((strideRange (rows.length - w + 1) stride).filter (acceptWindow rows w minReq)).enum.map
    (fun pr => { ticker := tk, dateStart := dates.getD pr.2 0,
                 dateEnd := dates.getD (pr.2 + w - 1) 0,
                 windowIdx := pr.1, startPos := pr.2,
                 vec := flattenClean (windowRows rows w pr.2) })

/-- Error text of the short-history guard. -/
def errNotEnoughPoints : String := "Not enough data points for window_size"

/-- create_sliding_windows of the Qdrant step: raises when fewer rows than
the window size are available, otherwise collects the per-ticker windows. -/
def create_sliding_windows (rows : List (List Cell)) (dates : List ℤ)
    (tickers : List String) (w stride minReq : ℕ) : Except String (List WindowPoint) :=
  if rows.length < w then .error errNotEnoughPoints
  else .ok ((tickers.map (fun tk => windows_for_ticker rows dates tk w stride minReq)).flatten)

/-- Stride-1 positions are exactly 0..m-1. -/
theorem strideRange_one (m : ℕ) : strideRange m 1 = List.range m := by
  unfold strideRange
  simp

/-- C6: sliding-window construction at stride 1 over an n-row table: with
n < w it raises; with n >= w it never raises (rejected windows are skipped,
not an error), each ticker's accepted start positions are exactly the
positions of 0..n-w surviving the minimum-valid-count test, and when no
window is rejected each ticker gets exactly n - w + 1 windows. -/
theorem sliding_window_construction (rows : List (List Cell)) (dates : List ℤ)
    (tickers : List String) (w minReq : ℕ) :
    (rows.length < w →
      create_sliding_windows rows dates tickers w 1 minReq = .error errNotEnoughPoints) ∧
    (w ≤ rows.length →
      (∃ out, create_sliding_windows rows dates tickers w 1 minReq = .ok out) ∧
      ∀ tk : String,
        ((windows_for_ticker rows dates tk w 1 minReq).map WindowPoint.startPos =
          (List.range (rows.length - w + 1)).filter (acceptWindow rows w minReq)) ∧
        ((∀ i < rows.length - w + 1, acceptWindow rows w minReq i = true) →
          (windows_for_ticker rows dates tk w 1 minReq).length = rows.length - w + 1)) := by
  constructor
  · intro h
    unfold create_sliding_windows
    rw [if_pos h]
  · intro h
    have hstart : ∀ tk : String,
        (windows_for_ticker rows dates tk w 1 minReq).map WindowPoint.startPos =
          (List.range (rows.length - w + 1)).filter (acceptWindow rows w minReq) := by
      intro tk
      unfold windows_for_ticker
      rw [strideRange_one, List.map_map]
      have hcomp : (WindowPoint.startPos ∘ fun pr : ℕ × ℕ =>
          ({ ticker := tk, dateStart := dates.getD pr.2 0,
             dateEnd := dates.getD (pr.2 + w - 1) 0,
             windowIdx := pr.1, startPos := pr.2,
             vec := flattenClean (windowRows rows w pr.2) } : WindowPoint)) = Prod.snd := by
        funext pr
        rfl
      rw [hcomp, List.enum_map_snd]
    refine ⟨⟨_, by rw [create_sliding_windows, if_neg (not_lt.mpr h)]⟩, ?_⟩
    intro tk
    refine ⟨hstart tk, ?_⟩
    intro hall
    have hfil : (List.range (rows.length - w + 1)).filter (acceptWindow rows w minReq) =
        List.range (rows.length - w + 1) :=
      List.filter_eq_self.mpr (fun a ha => hall a (List.mem_range.mp ha))
    calc (windows_for_ticker rows dates tk w 1 minReq).length
        = ((windows_for_ticker rows dates tk w 1 minReq).map WindowPoint.startPos).length :=
          (List.length_map _ _).symm
      _ = ((List.range (rows.length - w + 1)).filter (acceptWindow rows w minReq)).length := by
          rw [hstart tk]
      _ = (List.range (rows.length - w + 1)).length := by rw [hfil]
      _ = rows.length - w + 1 := List.length_range _

/-- Witness for C6, the spec's Scenario C: a 40-row single-feature table
with window size 30, stride 1 and the default minimum of 25 valid points
per window yields exactly 11 windows for the ticker. -/
theorem sliding_window_construction_witness :
    (windows_for_ticker (List.replicate 40 [some (1 : ℚ)]) (List.replicate 40 (0 : ℤ))
      "A" 30 1 25).length = 11 := by
  have h := (sliding_window_construction (List.replicate 40 [some (1 : ℚ)])
    (List.replicate 40 (0 : ℤ)) ["A"] 30 25).2 (by decide)
  have h2 := (h.2 "A").2 (by decide)
  simpa using h2

/-- C10: the windows the Qdrant step builds for two tickers at the same
position carry identical vectors (the flattening of the same block of the
entire scaled feature matrix) and identical window indices and positions;
only the metadata differs, and every stored vector is the flattening of the
full-matrix rows of its window. -/
theorem qdrant_window_vectors_ticker_independent (rows : List (List Cell))
    (dates : List ℤ) (tk1 tk2 : String) (w stride minReq : ℕ) :
    ((windows_for_ticker rows dates tk1 w stride minReq).map
        (fun p => (p.windowIdx, p.startPos, p.vec)) =
      (windows_for_ticker rows dates tk2 w stride minReq).map
        (fun p => (p.windowIdx, p.startPos, p.vec))) ∧
    ∀ p ∈ windows_for_ticker rows dates tk1 w stride minReq,
      p.vec = flattenClean (windowRows rows w p.startPos) := by
  constructor
  · unfold windows_for_ticker
    rw [List.map_map, List.map_map]
    rfl
  · intro p hp
    unfold windows_for_ticker at hp
    rw [List.mem_map] at hp
    obtain ⟨pr, -, rfl⟩ := hp
    rfl

/-- Witness for C10 at a two-row, one-feature table: the first window of
ticker A is indexed and its vector is the flattening of the matrix block. -/
theorem qdrant_window_vectors_ticker_independent_witness :
    ((⟨"A", 10, 10, 0, 0, [1]⟩ : WindowPoint) ∈
      windows_for_ticker [[some (1 : ℚ)], [some (2 : ℚ)]] [10, 20] "A" 1 1 0) ∧
    (⟨"A", 10, 10, 0, 0, [1]⟩ : WindowPoint).vec =
      flattenClean (windowRows [[some (1 : ℚ)], [some (2 : ℚ)]] 1 0) := by
  have hm : (⟨"A", 10, 10, 0, 0, [1]⟩ : WindowPoint) ∈
      windows_for_ticker [[some (1 : ℚ)], [some (2 : ℚ)]] [10, 20] "A" 1 1 0 := by
    decide
  exact ⟨hm, (qdrant_window_vectors_ticker_independent [[some (1 : ℚ)], [some (2 : ℚ)]]
    [10, 20] "A" "B" 1 1 0).2 _ hm⟩

/-- Pandas rolling(window).min() at position t: the minimum of the w values
ending at t, none during the warm-up (t + 1 < w). Positions past the series
end are never queried by the source. -/
def rollingMin (xs : List ℚ) (w : ℕ) (t : ℕ) : Option ℚ :=
  if t + 1 < w then none else ((xs.drop (t + 1 - w)).take w).min?

/-- Pandas rolling(window).max() at position t. -/
def rollingMax (xs : List ℚ) (w : ℕ) (t : ℕ) : Option ℚ :=
  if t + 1 < w then none else ((xs.drop (t + 1 - w)).take w).max?

/-- Pandas .shift(1): the value one position earlier, none at position 0. -/
def shiftOne (f : ℕ → Option ℚ) (t : ℕ) : Option ℚ :=
  if t = 0 then none else f (t - 1)

/-- The epsilon guard 1e-8 of the indicator divisions. -/
def epsQ : ℚ := 1 / 100000000

/-- compute_stochastic (steps/feature_engineering_step.py lines 64-70): the
rolling low/high are shifted one period, but the numerator uses the price at
position t itself: 100 * (prices - low_min) / (high_max - low_min + 1e-8). -/
def compute_stochastic (prices : List ℚ) (w t : ℕ) : Option ℚ :=
  match shiftOne (rollingMin prices w) t, shiftOne (rollingMax prices w) t with
  | some lo, some hi => some (100 * (prices.getD t 0 - lo) / (hi - lo + epsQ))
  | _, _ => none

set_option maxRecDepth 8000 in
/-- C1 counterexample: two price series that agree on all dates before t = 14
but differ at t get different stored stochastic values at t, so the stored
value at date t is not computable from data at dates at or before t - 1. -/
theorem feature_lag_counterexample :
    (([1, 2, 3, 4, 5, 6, 7, 8, 9, 10, 11, 12, 13, 14, 10] : List ℚ).take 14 =
      ([1, 2, 3, 4, 5, 6, 7, 8, 9, 10, 11, 12, 13, 14, 20] : List ℚ).take 14) ∧
    compute_stochastic [1, 2, 3, 4, 5, 6, 7, 8, 9, 10, 11, 12, 13, 14, 10] 14 14 ≠
      compute_stochastic [1, 2, 3, 4, 5, 6, 7, 8, 9, 10, 11, 12, 13, 14, 20] 14 14 := by
  constructor
  · decide
  · have hmin1 : shiftOne
        (rollingMin [1, 2, 3, 4, 5, 6, 7, 8, 9, 10, 11, 12, 13, 14, 10] 14) 14 =
        some 1 := by decide
    have hmax1 : shiftOne
        (rollingMax [1, 2, 3, 4, 5, 6, 7, 8, 9, 10, 11, 12, 13, 14, 10] 14) 14 =
        some 14 := by decide
    have hget1 : ([1, 2, 3, 4, 5, 6, 7, 8, 9, 10, 11, 12, 13, 14, 10] : List ℚ).getD 14 0 =
        10 := by decide
    have hmin2 : shiftOne
        (rollingMin [1, 2, 3, 4, 5, 6, 7, 8, 9, 10, 11, 12, 13, 14, 20] 14) 14 =
        some 1 := by decide
    have hmax2 : shiftOne
        (rollingMax [1, 2, 3, 4, 5, 6, 7, 8, 9, 10, 11, 12, 13, 14, 20] 14) 14 =
        some 14 := by decide
    have hget2 : ([1, 2, 3, 4, 5, 6, 7, 8, 9, 10, 11, 12, 13, 14, 20] : List ℚ).getD 14 0 =
        20 := by decide
    unfold compute_stochastic
    simp only [hmin1, hmax1, hget1, hmin2, hmax2, hget2]
    intro hc
    rw [Option.some.injEq] at hc
    norm_num [epsQ] at hc

/-- Values at an index below the cutoff agree with the truncated list. -/
theorem getD_take_eq (p : List ℚ) (t : ℕ) :
    p.getD t 0 = (p.take (t + 1)).getD t 0 := by
  induction p generalizing t with
  | nil => simp
  | cons a l ih =>
    cases t with
    | zero => simp
    | succ k =>
      simp only [List.take_succ_cons, List.getD_cons_succ]
      exact ih k

/-- A w-wide block at offset a is determined by the length-n prefix when
a + w <= n. -/
theorem window_take_eq (p : List ℚ) (a w n : ℕ) (hw : a + w ≤ n) :
    (p.drop a).take w = ((p.take n).drop a).take w := by
  rw [List.drop_take, List.take_take, Nat.min_eq_left (by omega)]

/-- C1 amended: every rolling component of the stochastic indicator is
lagged by one period, but the stored value at date t also reads the date-t
price, so it is determined by the prices at dates at or before t (prefix of
length t + 1) — not by the prices at dates at or before t - 1. -/
theorem stochastic_prefix_determined (p1 p2 : List ℚ) (w t : ℕ)
    (h : p1.take (t + 1) = p2.take (t + 1)) :
    compute_stochastic p1 w t = compute_stochastic p2 w t := by
  cases t with
  | zero =>
    unfold compute_stochastic shiftOne
    simp
  | succ k =>
    have hmin : rollingMin p1 w k = rollingMin p2 w k := by
      unfold rollingMin
      by_cases hc : k + 1 < w
      · rw [if_pos hc, if_pos hc]
      · rw [if_neg hc, if_neg hc,
          window_take_eq p1 (k + 1 - w) w (k + 1 + 1) (by omega),
          window_take_eq p2 (k + 1 - w) w (k + 1 + 1) (by omega), h]
    have hmax : rollingMax p1 w k = rollingMax p2 w k := by
      unfold rollingMax
      by_cases hc : k + 1 < w
      · rw [if_pos hc, if_pos hc]
      · rw [if_neg hc, if_neg hc,
          window_take_eq p1 (k + 1 - w) w (k + 1 + 1) (by omega),
          window_take_eq p2 (k + 1 - w) w (k + 1 + 1) (by omega), h]
    have hget : p1.getD (k + 1) 0 = p2.getD (k + 1) 0 := by
      rw [getD_take_eq p1 (k + 1), getD_take_eq p2 (k + 1), h]
    unfold compute_stochastic shiftOne
    simp only [Nat.succ_sub_one]
    rw [if_neg (Nat.succ_ne_zero k), if_neg (Nat.succ_ne_zero k),
      if_neg (Nat.succ_ne_zero k), if_neg (Nat.succ_ne_zero k),
      hmin, hmax, hget]

/-- Witness for the amended C1 theorem: two series sharing the first three
prices get the same stochastic value at t = 2 with window 1. -/
theorem stochastic_prefix_determined_witness :
    (([1, 2, 3, 9] : List ℚ).take 3 = ([1, 2, 3, 7] : List ℚ).take 3) ∧
    compute_stochastic [1, 2, 3, 9] 1 2 = compute_stochastic [1, 2, 3, 7] 1 2 :=
  ⟨by decide, stochastic_prefix_determined [1, 2, 3, 9] [1, 2, 3, 7] 1 2 (by decide)⟩

/-- sklearn guard for zero scales (`_handle_zeros_in_scale`): a zero scale
becomes 1 so constant features transform to 0 instead of dividing by 0. -/
def handleZeroScale (s : ℚ) : ℚ := if s = 0 then 1 else s

/-- Error text of the unknown-method guard
(steps/scale_features_step.py line 182). -/
def errUnknownMethod : String := "Unknown scaling method: "

/-- Error text modelling the Python NameError raised when scaling_stats
reads train_means (line 276) although only the standard branch (line 221)
ever assigns it. -/
def errTrainMeansUndefined : String := "NameError: train_means is not defined"

/-- Error text of the empty-training-mask guard of the scaling step. -/
def errNoTrainScaling : String := "No train data for scaling. Check train_end_date."

/-- Scaler fit dispatch (lines 169-186): per-column (centre, scale) pairs.
standard: mean and sqrt of variance (sqrtQ abstracts numpy sqrt); robust:
median and interquartile range; minmax: minimum and range. -/
def fitScaler (sqrtQ : ℚ → ℚ) (method : String) (train : List (List ℚ))
    (nCols : ℕ) : Except String (List (ℚ × ℚ)) :=
  if method == "standard" then
    .ok ((List.range nCols).map (fun j =>
      (listMean (colVals train j), handleZeroScale (sqrtQ (popVar (colVals train j))))))
  else if method == "robust" then
    .ok ((List.range nCols).map (fun j =>
      (percentileLinear (colVals train j) 50,
       handleZeroScale (percentileLinear (colVals train j) 75 -
         percentileLinear (colVals train j) 25))))
  else if method == "minmax" then
    .ok ((List.range nCols).map (fun j =>
      (listMinD (colVals train j),
       handleZeroScale (listMaxD (colVals train j) - listMinD (colVals train j)))))
  else .error (errUnknownMethod ++ method)

/-- Transform of one row with the fitted (centre, scale) pairs. -/
def transformRow (params : List (ℚ × ℚ)) (r : List ℚ) : List ℚ :=
  params.enum.map (fun pr => (r.getD pr.1 0 - pr.2.1) / pr.2.2)

/-- Transform of a whole matrix with the frozen parameters. -/
def transformAll (params : List (ℚ × ℚ)) (rows : List (List ℚ)) : List (List ℚ) :=
  rows.map (transformRow params)

/-- Column count of the feature table (`features_all.shape[1]`). -/
def nColsOf (tbl : List (ℤ × List ℚ)) : ℕ := (tbl.headD (0, [])).2.length

/-- The scaling-statistics fields the claims read (the audit-only skew,
correlation and low-variance diagnostics are not modelled, no claim reads
them). trainMean/trainStd come from the pandas mean and sample std of the
scaled training slice; the latter takes a square root through sqrtQ. -/
structure ScalingStats where
  scalingMethod : String
  nFeatures : ℕ
  trainSamples : ℕ
  testSamples : ℕ
  trainMeanMin : ℚ
  trainMeanMax : ℚ
  trainStdMin : ℚ
  trainStdMax : ℚ
  deriving DecidableEq

/-- scale_features (steps/scale_features_step.py): guard the empty training
mask, dispatch on the scaling method (unknown methods fail fast at line
182), fit on the training slice only, transform the full matrix, then build
scaling_stats — whose train_means/train_stds inputs exist only when the
method is standard (lines 221-226), so any other method reaches line 276
with train_means unassigned and dies with a NameError. The NaN/Inf guards
are vacuous in this total rational model: the claims about this step
restrict to valid (NaN/Inf-free) matrices. -/
def scale_features (sqrtQ : ℚ → ℚ) (tbl : List (ℤ × List ℚ)) (tEnd : ℤ)
    (method : String) : Except String (List (List ℚ) × ScalingStats) :=
  if (trainSlice tEnd tbl).isEmpty then .error errNoTrainScaling
  else
    match fitScaler sqrtQ method (trainSlice tEnd tbl) (nColsOf tbl) with
    | .error e => .error e
    | .ok params =>
      let scaled := transformAll params (tbl.map Prod.snd)
      let scaledTrain := transformAll params (trainSlice tEnd tbl)
      let trainMeansOpt : Option (List ℚ) :=
        if method == "standard" then
          some ((List.range (nColsOf tbl)).map (fun j => listMean (colVals scaledTrain j)))
        else none
      let trainStdsOpt : Option (List ℚ) :=
        if method == "standard" then
          some ((List.range (nColsOf tbl)).map
            (fun j => sqrtQ (sampleVar (colVals scaledTrain j))))
        else none
      match trainMeansOpt, trainStdsOpt with
      | some tm, some ts =>
        .ok (scaled,
          { scalingMethod := method
            nFeatures := nColsOf tbl
            trainSamples := (trainSlice tEnd tbl).length
            testSamples := tbl.length - (trainSlice tEnd tbl).length
            trainMeanMin := listMinD tm
            trainMeanMax := listMaxD tm
            trainStdMin := listMinD ts
            trainStdMax := listMaxD ts })
      | _, _ => .error errTrainMeansUndefined

/-- C7: on a valid two-row feature table, the standard method completes, an
unknown method fails fast with the descriptive dispatch error, but the
robust and minmax variants crash in the statistics section (the modelled
NameError for the unassigned train_means), contradicting the claim that all
three selectable variants complete successfully. -/
theorem scaling_method_dispatch_and_stats_bug :
    scale_features (fun q => q) [((0 : ℤ), [(0 : ℚ)]), ((1 : ℤ), [(2 : ℚ)])] 1 "robust" =
      .error errTrainMeansUndefined ∧
    scale_features (fun q => q) [((0 : ℤ), [(0 : ℚ)]), ((1 : ℤ), [(2 : ℚ)])] 1 "minmax" =
      .error errTrainMeansUndefined ∧
    (∃ out, scale_features (fun q => q)
      [((0 : ℤ), [(0 : ℚ)]), ((1 : ℤ), [(2 : ℚ)])] 1 "standard" = .ok out) ∧
    scale_features (fun q => q) [((0 : ℤ), [(0 : ℚ)]), ((1 : ℤ), [(2 : ℚ)])] 1 "badmethod" =
      .error (errUnknownMethod ++ "badmethod") :=
  ⟨rfl, rfl, ⟨_, rfl⟩, rfl⟩

/-- Neighbor metadata payload returned by a similarity query: a field name
to value mapping (dict get with default 0.0 is modelled by payloadGet). -/
structure NeighborPayload where
  fields : List (String × ℚ)
  deriving DecidableEq

/-- Python `payload.get(key, 0.0)`. -/
def payloadGet (p : NeighborPayload) (k : String) : ℚ :=
  ((p.fields.filter (fun kv => kv.1 == k)).headD (k, 0)).2

/-- numpy median: middle order statistic, or the mean of the two middle
ones for an even sample size. -/
def medianQ (xs : List ℚ) : ℚ :=
  let s := sortAsc xs
  if s.length % 2 = 1 then s.getD (s.length / 2) 0
  else (s.getD (s.length / 2 - 1) 0 + s.getD (s.length / 2) 0) / 2

/-- The dictionary returned by calculate_weighted_prediction; min/max score
keys are present only in the nonempty branch, hence the options. -/
structure PredictionResult where
  weightedMean : ℚ
  simpleMean : ℚ
  median : ℚ
  std : ℚ
  confidence : ℚ
  nNeighbors : ℕ
  minScore : Option ℚ
  maxScore : Option ℚ
  deriving DecidableEq

/-- Error text of the unknown-weight-method guard
(utils/qdrant_helpers.py line 200). -/
def errUnknownWeight : String := "Unknown weight method: "

/-- Error text of the unknown-anomaly-method guard (line 275). -/
def errUnknownAnomalyMethod : String := "Unknown method: "

/-- calculate_weighted_prediction (utils/qdrant_helpers.py lines 128-221),
taking the neighbor query outcome as pairs (payload, score). The empty
result set returns the zero-confidence defaults before any weighting or
method validation. sqrtQ abstracts the numpy std square root and expQ the
exponential weighting kernel. -/
def calculate_weighted_prediction (sqrtQ expQ : ℚ → ℚ)
    (neighbors : List (NeighborPayload × ℚ)) (predField weightMethod : String) :
    Except String PredictionResult :=
  if neighbors.isEmpty then
    .ok { weightedMean := 0, simpleMean := 0, median := 0, std := 0, confidence := 0,
          nNeighbors := 0, minScore := none, maxScore := none }
  else
    let scores := neighbors.map Prod.snd
    let values := neighbors.map (fun nb => payloadGet nb.1 predField)
    match (if weightMethod == "inverse_distance" then
        some (scores.map (fun sc => sc / scores.sum))
      else if weightMethod == "exponential" then
        some ((scores.map expQ).map (fun e => e / (scores.map expQ).sum))
      else if weightMethod == "uniform" then
        some (scores.map (fun _ => 1 / (neighbors.length : ℚ)))
      else none) with
    | none => .error (errUnknownWeight ++ weightMethod)
    | some weights =>
      .ok { weightedMean := ((weights.zip values).map (fun pr => pr.1 * pr.2)).sum,
            simpleMean := listMean values, median := medianQ values,
            std := sqrtQ (popVar values),
            confidence := maxQ 0 (minQ 1 (listMean scores *
              (1 - sqrtQ (popVar values) / (|listMean values| + 1 / 1000000)))),
            nNeighbors := neighbors.length,
            minScore := some (listMinD scores), maxScore := some (listMaxD scores) }

/-- The dictionary returned by calculate_anomaly_score; similarity extrema
and neighbor count are present only in the nonempty branch. -/
structure AnomalyResult where
  anomalyScore : ℚ
  avgSimilarity : ℚ
  isAnomalous : Bool
  minSimilarity : Option ℚ
  maxSimilarity : Option ℚ
  nNeighbors : Option ℕ
  deriving DecidableEq

/-- calculate_anomaly_score (utils/qdrant_helpers.py lines 224-287): empty
neighbor sets return the maximal-anomaly defaults; otherwise distances
1 - score are aggregated by the chosen method, clamped to [0, 1], and
flagged anomalous above 0.5. -/
def calculate_anomaly_score (neighbors : List (NeighborPayload × ℚ))
    (method : String) : Except String AnomalyResult :=
  if neighbors.isEmpty then
    .ok { anomalyScore := 1, avgSimilarity := 0, isAnomalous := true,
          minSimilarity := none, maxSimilarity := none, nNeighbors := none }
  else
    let scores := neighbors.map Prod.snd
    let distances := scores.map (fun sc => 1 - sc)
    match (if method == "average_distance" then some (listMean distances)
      else if method == "min_distance" then some (listMinD distances)
      else none) with
    | none => .error (errUnknownAnomalyMethod ++ method)
    | some raw =>
      .ok { anomalyScore := maxQ 0 (minQ 1 raw),
            avgSimilarity := listMean scores,
            isAnomalous := decide ((1 : ℚ) / 2 < maxQ 0 (minQ 1 raw)),
            minSimilarity := some (listMinD scores),
            maxSimilarity := some (listMaxD scores),
            nNeighbors := some neighbors.length }

/-- C8: with zero neighbors, for every field name and weighting or distance
method, the weighted-prediction operation returns (not raises) the
degraded-but-valid record with confidence 0, zero weighted mean, simple
mean, median and std, and 0 neighbors; and the anomaly-scoring operation
returns the maximal score 1 flagged anomalous. -/
theorem empty_neighbors_degrade_gracefully (sqrtQ expQ : ℚ → ℚ)
    (predField weightMethod method : String) :
    calculate_weighted_prediction sqrtQ expQ [] predField weightMethod =
      .ok ⟨0, 0, 0, 0, 0, 0, none, none⟩ ∧
    calculate_anomaly_score [] method = .ok ⟨1, 0, true, none, none, none⟩ :=
  ⟨rfl, rfl⟩

end FinX
